import Mathlib

set_option maxRecDepth 40000

/-!
Verification of the commit-emails-bot webhook service (Go sources:
mailbot.go in its two revisions, config.go) against its natural-language
specification. Bytes are modelled as natural numbers below 256, machine
32-bit arithmetic as Nat reduced modulo 2 ^ 32, and the effectful git /
filesystem / subprocess surroundings as an explicit world state threaded
through the handlers.
-/

namespace CommitEmailsBot

/-! ## SHA-256 and HMAC-SHA256 (crypto/sha256, crypto/hmac)

The hand-rolled webhook handler authenticates a request by comparing the
digest scanned from the X-Hub-Signature-256 header against
HMAC-SHA256(secret, body). The hash is embedded here executably, bytes as
Nat, words as Nat reduced mod 2 ^ 32. -/

/-- Reduce a natural number to a 32-bit word. -/
def m32 (x : Nat) : Nat := x % 4294967296

/-- Rotate a 32-bit word right by n bits. -/
def rotr32 (n x : Nat) : Nat := m32 ((x >>> n) ||| (x <<< (32 - n)))

/-- The 64 SHA-256 round constants, written in decimal. -/
def sha256K : List Nat :=
  [1116352408, 1899447441, 3049323471, 3921009573, 961987163, 1508970993,
   2453635748, 2870763221, 3624381080, 310598401, 607225278, 1426881987,
   1925078388, 2162078206, 2614888103, 3248222580, 3835390401, 4022224774,
   264347078, 604807628, 770255983, 1249150122, 1555081692, 1996064986,
   2554220882, 2821834349, 2952996808, 3210313671, 3336571891, 3584528711,
   113926993, 338241895, 666307205, 773529912, 1294757372, 1396182291,
   1695183700, 1986661051, 2177026350, 2456956037, 2730485921, 2820302411,
   3259730800, 3345764771, 3516065817, 3600352804, 4094571909, 275423344,
   430227734, 506948616, 659060556, 883997877, 958139571, 1322822218,
   1537002063, 1747873779, 1955562222, 2024104815, 2227730452, 2361852424,
   2428436474, 2756734187, 3204031479, 3329325298]

/-- Working state of the SHA-256 compression function: eight 32-bit words. -/
structure H8 where
  a : Nat
  b : Nat
  c : Nat
  d : Nat
  e : Nat
  f : Nat
  g : Nat
  h : Nat
deriving DecidableEq

/-- The SHA-256 initial hash value, written in decimal. -/
def sha256Init : H8 :=
  ⟨1779033703, 3144134277, 1013904242, 2773480762,
   1359893119, 2600822924, 528734635, 1541459225⟩

/-- One SHA-256 round; kw is the round constant already added to the
scheduled message word. -/
def shaRound (s : H8) (kw : Nat) : H8 :=
  let s1 := rotr32 6 s.e ^^^ rotr32 11 s.e ^^^ rotr32 25 s.e
  let ch := (s.e &&& s.f) ^^^ ((s.e ^^^ 4294967295) &&& s.g)
  let temp1 := m32 (s.h + s1 + ch + kw)
  let s0 := rotr32 2 s.a ^^^ rotr32 13 s.a ^^^ rotr32 22 s.a
  let maj := (s.a &&& s.b) ^^^ (s.a &&& s.c) ^^^ (s.b &&& s.c)
  let temp2 := m32 (s0 + maj)
  ⟨m32 (temp1 + temp2), s.a, s.b, s.c, m32 (s.d + temp1), s.e, s.f, s.g⟩

/-- Pack bytes into 32-bit big-endian words. -/
def toWords32 : List Nat → List Nat
  | b0 :: b1 :: b2 :: b3 :: rest =>
    (b0 * 16777216 + b1 * 65536 + b2 * 256 + b3) :: toWords32 rest
  | _ => []

/-- Message-schedule sigma-0. -/
def smallS0 (x : Nat) : Nat := rotr32 7 x ^^^ rotr32 18 x ^^^ (x >>> 3)

/-- Message-schedule sigma-1. -/
def smallS1 (x : Nat) : Nat := rotr32 17 x ^^^ rotr32 19 x ^^^ (x >>> 10)

/-- Extend the 16-word message block, one scheduled word per fuel step. -/
def extendLoop : Nat → List Nat → List Nat
  | 0, w => w
  | n + 1, w =>
    let len := w.length
    let nw := m32 (w.getD (len - 16) 0 + smallS0 (w.getD (len - 15) 0)
      + w.getD (len - 7) 0 + smallS1 (w.getD (len - 2) 0))
    extendLoop n (w ++ [nw])

/-- The full 64-entry message schedule of one block. -/
def msgSchedule (w16 : List Nat) : List Nat := extendLoop 48 w16

/-- Compress one 64-byte chunk into the running hash state. -/
def compressChunk (st : H8) (chunk : List Nat) : H8 :=
  let w := msgSchedule (toWords32 chunk)
  let kw := List.zipWith (fun k wi => k + wi) sha256K w
  let t := kw.foldl shaRound st
  ⟨m32 (st.a + t.a), m32 (st.b + t.b), m32 (st.c + t.c), m32 (st.d + t.d),
   m32 (st.e + t.e), m32 (st.f + t.f), m32 (st.g + t.g), m32 (st.h + t.h)⟩

/-- Split a byte list into 64-byte chunks (fuel-indexed; the fuel
l.length dominates the number of iterations). -/
def chunks64Go : Nat → List Nat → List (List Nat)
  | 0, _ => []
  | fuel + 1, l => if l = [] then [] else l.take 64 :: chunks64Go fuel (l.drop 64)

/-- Split a byte list into 64-byte chunks. -/
def chunks64 (l : List Nat) : List (List Nat) := chunks64Go l.length l

/-- Big-endian 8-byte encoding of a length value. -/
def be64 (n : Nat) : List Nat :=
  [(n >>> 56) % 256, (n >>> 48) % 256, (n >>> 40) % 256, (n >>> 32) % 256,
   (n >>> 24) % 256, (n >>> 16) % 256, (n >>> 8) % 256, n % 256]

/-- SHA-256 padding: a 0x80 byte, zeros to 56 mod 64, then the bit length. -/
def sha256Pad (msg : List Nat) : List Nat :=
  let len := msg.length
  let k := (119 - len % 64) % 64
  msg ++ [128] ++ List.replicate k 0 ++ be64 (len * 8)

/-- Serialize the hash state as 32 big-endian bytes. -/
def bytesOfWords (ws : List Nat) : List Nat :=
  ws.foldr (fun w acc => (w >>> 24) % 256 :: (w >>> 16) % 256 :: (w >>> 8) % 256 :: w % 256 :: acc) []

/-- SHA-256 of a byte string. -/
def sha256 (msg : List Nat) : List Nat :=
  let st := (chunks64 (sha256Pad msg)).foldl compressChunk sha256Init
  bytesOfWords [st.a, st.b, st.c, st.d, st.e, st.f, st.g, st.h]

/-- HMAC-SHA256 with byte-string key and message (crypto/hmac with a
sha256 block size of 64). -/
def hmacSha256 (key msg : List Nat) : List Nat :=
  let k := if 64 < key.length then sha256 key else key
  let k0 := k ++ List.replicate (64 - k.length) 0
  let ipad := k0.map (fun b => b ^^^ 0x36)
  let opad := k0.map (fun b => b ^^^ 0x5c)
  sha256 (opad ++ sha256 (ipad ++ msg))

/-! ## Signature header scanning (mailbot.go, old revision, lines 543-559)

The old handler extracts the expected digest with
fmt.Sscanf(sig, "sha256=%x", &expectedHash). The Go scanner matches the
literal prefix exactly, skips horizontal whitespace before the verb, then
consumes hex digits two at a time: it stops cleanly at a pair boundary
when a non-hex character follows, errors on an odd-length run, and errors
when no digits are present at all. Trailing non-hex bytes after a
complete pair are left unconsumed and do NOT make the scan fail. -/

/-- Value of a hex digit character, none for a non-hex character
(fmt scan accepts both cases). -/
def hexDigitVal? (c : Char) : Option Nat :=
  if '0' ≤ c ∧ c ≤ '9' then some (c.toNat - 48)
  else if 'a' ≤ c ∧ c ≤ 'f' then some (c.toNat - 87)
  else if 'A' ≤ c ∧ c ≤ 'F' then some (c.toNat - 70)
  else none

/-- Whether a character is a hex digit. -/
def isHexDigitB (c : Char) : Bool := (hexDigitVal? c).isSome

/-- Consume hex digits two at a time, as the %x verb does for a byte
slice: stop (keeping what was read) at a non-hex character on a pair
boundary, fail on an odd run or when nothing was read. -/
def parseHexPairs : List Char → List Nat → Option (List Nat)
  | [], acc => if acc.isEmpty then none else some acc.reverse
  | c :: rest, acc =>
    match hexDigitVal? c with
    | none => if acc.isEmpty then none else some acc.reverse
    | some v1 =>
      match rest with
      | [] => none
      | c2 :: rest2 =>
        match hexDigitVal? c2 with
        | none => none
        | some v2 => parseHexPairs rest2 ((v1 * 16 + v2) :: acc)

/-- Model of fmt.Sscanf(sig, "sha256=%x", &expectedHash): the literal
prefix must match exactly, horizontal whitespace before the digits is
skipped, then hex pairs are read. Returns the scanned bytes, or none
when the scan reports an error (n is then not 1). -/
def parseSigHeader (sig : String) : Option (List Nat) :=
  let cs := sig.data
  if cs.take 7 = "sha256=".data then
    parseHexPairs ((cs.drop 7).dropWhile (fun c => c = ' ' ∨ c = '\t')) []
  else none

/-- Lowercase hex digit character of a value below 16. -/
def hexDigitChar (n : Nat) : Char :=
  if n < 10 then Char.ofNat (48 + n) else Char.ofNat (87 + n)

/-- Lowercase hex encoding of a byte string. -/
def hexOfBytes (l : List Nat) : String :=
  ⟨l.foldr (fun b acc => hexDigitChar (b / 16) :: hexDigitChar (b % 16) :: acc) []⟩

/-- Authentication decision of the old handler: scan the header, then
compare the scanned digest against HMAC-SHA256(secret, body) with
hmac.Equal (a length-sensitive constant-time equality). -/
def oldWebhookAuth (secret : List Nat) (sigHeader : String) (body : List Nat) : Bool :=
  match parseSigHeader sigHeader with
  | none => false
  | some expected => expected == hmacSha256 secret body

/-! ## filepath.Join and filepath.Clean (unix rules)

Both revisions derive the mirror directory as
filepath.Join(persistPath, "repos", "github.com", fullName). Join
concatenates the elements (from the first non-empty one) with slashes and
then applies Clean, which resolves empty, dot and dot-dot segments. -/

/-- Split a character list at every slash; n slashes yield n+1 segments. -/
def splitSegs : List Char → List (List Char)
  | [] => [[]]
  | c :: cs =>
    if c = '/' then [] :: splitSegs cs
    else
      match splitSegs cs with
      | [] => [[c]]
      | s :: ss => (c :: s) :: ss

/-- Join segments with slashes, inverse of splitSegs. -/
def joinSegs : List (List Char) → List Char
  | [] => []
  | [s] => s
  | s :: ss => s ++ '/' :: joinSegs ss

/-- The segment-processing loop of Clean: drop empty and dot segments, a
dot-dot pops the previous real segment, is dropped at the root of an
absolute path, and accumulates at the front of a relative path. -/
def cleanLoop (abs : Bool) (acc : List (List Char)) : List (List Char) → List (List Char)
  | [] => acc
  | s :: rest =>
    if s = [] ∨ s = ['.'] then cleanLoop abs acc rest
    else if s = ['.', '.'] then
      match acc.getLast? with
      | some t =>
        if t = ['.', '.'] then cleanLoop abs (acc ++ [s]) rest
        else cleanLoop abs acc.dropLast rest
      | none => if abs then cleanLoop abs acc rest else cleanLoop abs [s] rest
    else cleanLoop abs (acc ++ [s]) rest

/-- filepath.Clean on the character list of a path: an empty path cleans
to a dot, an absolute path keeps its leading slash (a bare slash when
nothing remains), and a relative path that cleans away entirely becomes
a dot. -/
def cleanChars (l : List Char) : List Char :=
  if l = [] then ['.']
  else if l.head? = some '/' then '/' :: joinSegs (cleanLoop true [] (splitSegs l))
  else if joinSegs (cleanLoop false [] (splitSegs l)) = [] then ['.']
  else joinSegs (cleanLoop false [] (splitSegs l))

/-- filepath.Clean on a string path. -/
def filepathClean (s : String) : String := ⟨cleanChars s.data⟩

/-- strings.Join with a slash separator. -/
def joinSlash : List String → String
  | [] => ""
  | [s] => s
  | s :: ss => s ++ "/" ++ joinSlash ss

/-- filepath.Join: from the first non-empty element, join everything with
slashes and Clean the result; all-empty input gives the empty string. -/
def filepathJoin : List String → String
  | [] => ""
  | e :: rest => if e = "" then filepathJoin rest else filepathClean (joinSlash (e :: rest))

/-- The mirror directory of a repository:
filepath.Join(persistPath, "repos", "github.com", fullName), shared by
the ping and push paths of the old handler (lines 584 and 635). -/
def mirrorGitDir (persist fullName : String) : String :=
  filepathJoin [persist, "repos", "github.com", fullName]

/-- A segment that Clean passes through untouched: non-empty, not a dot,
not a dot-dot. Segments produced by splitSegs never contain a slash. -/
def goodSeg (s : List Char) : Bool := ¬(s = [] ∨ s = ['.'] ∨ s = ['.', '.'])

/-- A relative path all of whose slash-separated segments are good; such
a path is left untouched by Clean. -/
def goodRel (s : String) : Bool := (splitSegs s.data).all goodSeg

/-! ## World model for the effectful surroundings

The handlers shell out to git and to the notifier and look at the local
filesystem. The world records, per path, what is on disk; per clone URL,
the state of the upstream repository (fixed within a run: the claims all
speak of runs with no concurrent upstream change); and the exit status
the notifier subprocess would report. A repository snapshot is abstracted
to an identifier plus the decoded view of its configuration file at
HEAD. -/

/-- Decoded view of a .github/commit-emails.(json|toml) file at HEAD:
the two recognized fields, the unrecognized keys, and whether the raw
bytes fail to parse at all. This is the interface the JSON and TOML
decoding libraries present to the code under verification. -/
structure ConfigFileView where
  mailingList : String
  emailFormat : String
  unknownKeys : List String
  malformed : Bool
deriving DecidableEq

/-- State of an upstream repository: an abstract content snapshot and
its configuration file (none when the file does not exist). -/
structure RemoteRepo where
  snap : Nat
  config : Option ConfigFileView
deriving DecidableEq

/-- A local bare mirror: the recorded origin URL and the mirrored
snapshot and configuration file. -/
structure MirrorContent where
  origin : String
  snap : Nat
  config : Option ConfigFileView
deriving DecidableEq

/-- What a filesystem path holds: nothing, a non-directory, or a bare
mirror. -/
inductive FsEntry where
  | absent
  | file
  | mirror (m : MirrorContent)
deriving DecidableEq

/-- The world the handlers run against. -/
structure World where
  fs : String → FsEntry
  remote : String → Option RemoteRepo
  notifierOk : Bool

/-- Model of git clone --bare --quiet url dest (gitClone, line 679):
fails when the remote is unreachable, otherwise materializes a bare
mirror of the remote at dest. -/
def gitClone (url dest : String) (w : World) : Except String World :=
  match w.remote url with
  | none => .error ("git clone failed: " ++ url)
  | some r => .ok { w with fs := Function.update w.fs dest (.mirror ⟨url, r.snap, r.config⟩) }

/-- Model of git fetch --quiet --force origin with refspec all-to-all
(gitFetch, line 684): requires a mirror at gitDir, then forces its
content to the current state of its recorded origin. -/
def gitFetch (gitDir : String) (w : World) : Except String World :=
  match w.fs gitDir with
  | .mirror m =>
    match w.remote m.origin with
    | none => .error ("git fetch failed: " ++ m.origin)
    | some r => .ok { w with fs := Function.update w.fs gitDir (.mirror ⟨m.origin, r.snap, r.config⟩) }
  | _ => .error (gitDir ++ " is not a git repository")

/-- syncRepo (old revision, lines 612-632): clone when the directory is
absent, fail when the path holds a non-directory, and in every
successful case fall through to a forced fetch. -/
def syncRepo (gitDir url : String) (w : World) : Except String World :=
  match w.fs gitDir with
  | .absent =>
    match gitClone url gitDir w with
    | .error e => .error e
    | .ok w1 => gitFetch gitDir w1
  | .file => .error (gitDir ++ " exists and is not a directory")
  | .mirror _ => gitFetch gitDir w

/-- The world after a clone or forced fetch has installed the upstream
state r of url into the mirror at gitDir. -/
def syncedWorld (w : World) (gitDir url : String) (r : RemoteRepo) : World :=
  { w with fs := Function.update w.fs gitDir (.mirror ⟨url, r.snap, r.config⟩) }

/-- The configuration file visible at HEAD of the mirror at gitDir, as
read by git show (none when the path is no mirror or the file is
absent). -/
def configAt (w : World) (gitDir : String) : Option ConfigFileView :=
  match w.fs gitDir with
  | .mirror m => m.config
  | _ => none

/-! ## Notifier invocations -/

/-- The single-quote character, written by code point to keep source
scanning simple. -/
def sq : String := ⟨[Char.ofNat 39]⟩

/-- One spawn of ./git_multimail_wrapper.py: its argument list, its
stdin bytes, and the environment entries appended beyond os.Environ(). -/
structure Invocation where
  args : List String
  stdinPayload : String
  env : List (String × String)
deriving DecidableEq

/-- The three environment entries both revisions append for the
notifier: the git directory, the fixed global config, and the SMTP
password smuggled through an environment-scoped git-config parameter
wrapped in single quotes (lines 312-321 and 659-668). -/
def notifierEnv (smtpPassword gitDir : String) : List (String × String) :=
  [("GIT_DIR", gitDir), ("GIT_CONFIG_GLOBAL", "git-multimail.config"),
   ("GIT_CONFIG_PARAMETERS", sq ++ "multimailhook.smtpPass=" ++ smtpPassword ++ sq)]

/-- Outcome of one push-pipeline run: the error surfaced to the HTTP
layer, the world after the run, and the notifier invocations spawned. -/
structure PipelineResult where
  result : Except String Unit
  world : World
  invocations : List Invocation

/-! ## Old revision: JSON config resolver and handlers -/

namespace Old

/-- The commit-emails.json document shape of the old revision. -/
structure CommitEmailConfig where
  mailingList : String
  emailFormat : String
deriving DecidableEq

/-- getConfig of the old revision (lines 482-499): git show the file
(failure of any kind is one error), decode with DisallowUnknownFields
(so an unknown key is a decode error), then validate emailFormat. -/
def getConfig (gitDir : String) (w : World) : Except String CommitEmailConfig :=
  match configAt w gitDir with
  | none => .error "git show failed"
  | some view =>
    if view.malformed ∨ ¬view.unknownKeys.isEmpty then
      .error "decoding commit-emails.json: unknown or malformed field"
    else if view.emailFormat ≠ "" ∧ ¬(view.emailFormat = "html" ∨ view.emailFormat = "text") then
      .error ("invalid emailFormat (should be html or text): " ++ view.emailFormat)
    else .ok ⟨view.mailingList, view.emailFormat⟩

/-- Repository object common to the old revision's event payloads. -/
structure RepoInfo where
  fullName : String
  cloneUrl : String
deriving DecidableEq

/-- The old revision's push event payload fields that the handler
reads. -/
structure PushEvent where
  repository : RepoInfo
  ref : String
  before : String
  after : String
deriving DecidableEq

/-- The old revision's generic event payload fields that the handler
reads. -/
structure GenericEvent where
  repository : RepoInfo
  senderLogin : String
deriving DecidableEq

/-- githubPushHandler of the old revision (lines 634-677): sync the
mirror, read the config (any failure, including a missing file, aborts
with an error), build the argument list, then spawn the notifier. -/
def githubPushHandler (persist smtpPassword : String) (ev : PushEvent) (w : World) :
    PipelineResult :=
  let gitDir := mirrorGitDir persist ev.repository.fullName
  match syncRepo gitDir ev.repository.cloneUrl w with
  | .error e => ⟨.error e, w, []⟩
  | .ok w1 =>
    let args := if smtpPassword = "" then ["--stdout"] else []
    match getConfig gitDir w1 with
    | .error e =>
      ⟨.error ("no commit-emails.json found for " ++ ev.repository.fullName ++ ": " ++ e), w1, []⟩
    | .ok config =>
      let args := args ++ ["-c", "multimailhook.mailingList=" ++ config.mailingList]
      let args := args ++
        (if config.emailFormat ≠ "" then
          ["-c", "multimailhook.commitEmailFormat=" ++ config.emailFormat]
        else [])
      let inv : Invocation :=
        ⟨args, ev.before ++ " " ++ ev.after ++ " " ++ ev.ref, notifierEnv smtpPassword gitDir⟩
      if w1.notifierOk then ⟨.ok (), w1, [inv]⟩
      else ⟨.error "git_multimail_wrapper.py failed", w1, [inv]⟩

/-- An inbound webhook request as the old handler sees it: method, the
X-Hub-Signature-256 header (empty when missing), the X-GitHub-Event
header, and the raw body bytes. -/
structure Request where
  method : String
  sigHeader : String
  eventTypeHeader : String
  body : List Nat
deriving DecidableEq

/-- What one request produced: HTTP status, the body writes that went
out, whether the handler panicked after them, the final world, and the
notifier invocations. -/
structure HandlerResult where
  status : Nat
  writes : List String
  panicked : Bool
  world : World
  invocations : List Invocation

/-- githubEventHandler of the old revision (lines 537-610). The JSON
library is external, so the two unmarshal operations are passed in as
decoders from the raw body. A successful push writes 200 OK and then
slices the first 8 bytes of both SHAs for the log line, which panics
when either string is shorter. -/
def githubEventHandler
    (decodePush : List Nat → Except String PushEvent)
    (decodeGeneric : List Nat → Except String GenericEvent)
    (secret : List Nat) (persist smtpPassword : String)
    (req : Request) (w : World) : HandlerResult :=
  if req.method ≠ "POST" then ⟨400, ["unexpected method: " ++ req.method], false, w, []⟩
  else
    match parseSigHeader req.sigHeader with
    | none => ⟨400, ["invalid signature"], false, w, []⟩
    | some expected =>
      if expected ≠ hmacSha256 secret req.body then
        ⟨400, ["signature verification failed"], false, w, []⟩
      else if req.eventTypeHeader = "" then ⟨400, ["no event type specified"], false, w, []⟩
      else if req.eventTypeHeader = "push" then
        match decodePush req.body with
        | .error e => ⟨400, ["failed to parse payload: " ++ e], false, w, []⟩
        | .ok ev =>
          match githubPushHandler persist smtpPassword ev w with
          | ⟨.error e, w1, invs⟩ => ⟨400, ["push handler failed: " ++ e], false, w1, invs⟩
          | ⟨.ok _, w1, invs⟩ =>
            ⟨200, ["OK"], decide (ev.before.length < 8) || decide (ev.after.length < 8), w1, invs⟩
      else
        match decodeGeneric req.body with
        | .error e => ⟨400, ["failed to parse payload: " ++ e], false, w, []⟩
        | .ok gev =>
          if req.eventTypeHeader = "ping" then
            let gitDir := mirrorGitDir persist gev.repository.fullName
            match syncRepo gitDir gev.repository.cloneUrl w with
            | .error e => ⟨400, ["syncing repo failed: " ++ e], false, w, []⟩
            | .ok w1 => ⟨200, ["Pong"], false, w1, []⟩
          else ⟨200, [], false, w, []⟩

end Old

/-! ## New revision: TOML config resolver and push pipeline -/

namespace New

/-- The commit-emails.toml document shape of the new revision: the
top-level to field and the nested email.format field. -/
structure CommitEmailConfig where
  mailingList : String
  emailFormat : String
deriving DecidableEq

/-- What toml.Decode hands back to parseConfig: a decode error, the
populated struct, and the undecoded keys. This is the decoding
library's interface on a given file view. -/
structure TomlDecodeResult where
  decodeError : Option String
  config : CommitEmailConfig
  undecoded : List String
deriving DecidableEq

/-- The toml.Decode library call on the abstract view of a file. -/
def tomlDecode (view : ConfigFileView) : TomlDecodeResult :=
  if view.malformed then ⟨some "toml syntax error", ⟨"", ""⟩, []⟩
  else ⟨none, ⟨view.mailingList, view.emailFormat⟩, view.unknownKeys⟩

/-- parseConfig of config.go (lines 26-43): a decode error is fatal,
unknown keys only produce a warning (returned here as the list of
warning texts), and an email.format outside empty, html, text is
fatal. -/
def parseConfig (r : TomlDecodeResult) : Except String CommitEmailConfig × List String :=
  match r.decodeError with
  | some e => (.error ("decoding commit-emails.toml: " ++ e), [])
  | none =>
    let warnings :=
      if r.undecoded.isEmpty then []
      else ["unknown config fields: " ++ String.intercalate ", " r.undecoded]
    let format := r.config.emailFormat
    if format = "" ∨ format = "html" ∨ format = "text" then (.ok r.config, warnings)
    else (.error ("invalid email.format (should be html or text): " ++ format), warnings)

/-- Failure modes of config resolution in the new revision. -/
inductive ConfigError where
  | missing
  | invalid (msg : String)
deriving DecidableEq

/-- getConfig of config.go (lines 46-52): a GitShow failure of any kind
is MissingConfigError, otherwise the bytes go through parseConfig. -/
def getConfig (gitDir : String) (w : World) :
    Except ConfigError (CommitEmailConfig × List String) :=
  match configAt w gitDir with
  | none => .error .missing
  | some view =>
    match parseConfig (tomlDecode view) with
    | (.error e, _) => .error (.invalid e)
    | (.ok c, warns) => .ok (c, warns)

/-- The new revision's push event fields the pipeline reads. -/
structure PushEvent where
  repository : Old.RepoInfo
  ref : String
  before : String
  after : String
  headCommitCommitterName : String
  repoHtmlUrl : String
deriving DecidableEq

/-- The notifier arguments that do not depend on the SMTP password
(lines 302-307): mailing list, the optional format override, the sender
identity and the commit browse URL. -/
def notifierBaseArgs (config : CommitEmailConfig) (committerName htmlUrl : String) :
    List String :=
  ["-c", "multimailhook.mailingList=" ++ config.mailingList]
  ++ (if config.emailFormat ≠ "" then
        ["-c", "multimailhook.commitEmailFormat=" ++ config.emailFormat]
      else [])
  ++ ["-c", "multimailhook.from=" ++ committerName ++ " <notifications@commit-emails.xyz>",
      "-c", "multimailhook.commitBrowseURL=" ++ htmlUrl ++ "/commit/%(id)s"]

/-- Failure modes of SyncRepo in the new revision. -/
inductive SyncError where
  | missingConfig
  | git (msg : String)
deriving DecidableEq

/-- Modelled from the spec: SyncRepo is called by the new revision's
push handler but defined in a repository file not under src/. Per the
specification it synchronizes the local bare mirror (clone when absent,
forced fetch otherwise) with the installation-scoped token, and its
MissingConfigError outcome, which the caller treats as an opted-out
no-op, signals that the synchronized mirror has no configuration file
at HEAD. It returns the mirror directory on success and the world after
the sync. -/
def SyncRepo (persist : String) (repo : Old.RepoInfo) (w : World) :
    Except SyncError String × World :=
  let gitDir := mirrorGitDir persist repo.fullName
  match syncRepo gitDir repo.cloneUrl w with
  | .error e => (.error (.git e), w)
  | .ok w1 =>
    match configAt w1 gitDir with
    | none => (.error .missingConfig, w1)
    | some _ => (.ok gitDir, w1)

/-- githubPushHandler of the new revision (lines 279-331): installation
auth, SyncRepo with the opted-out short-circuit, config resolution,
argument construction and the notifier spawn. appAuthOk stands for
whether ghinstallation.New accepts the app credentials. -/
def githubPushHandler (persist smtpPassword : String) (appAuthOk : Bool)
    (ev : PushEvent) (w : World) : PipelineResult :=
  if ¬appAuthOk then ⟨.error "could not create installation transport", w, []⟩
  else
    match SyncRepo persist ev.repository w with
    | (.error .missingConfig, w1) => ⟨.ok (), w1, []⟩
    | (.error (.git e), w1) => ⟨.error e, w1, []⟩
    | (.ok gitDir, w1) =>
      let args := if smtpPassword = "" then ["--stdout"] else []
      match getConfig gitDir w1 with
      | .error _ => ⟨.error ("could not get config for " ++ ev.repository.fullName), w1, []⟩
      | .ok (config, _warns) =>
        let args := args ++ notifierBaseArgs config ev.headCommitCommitterName ev.repoHtmlUrl
        let inv : Invocation :=
          ⟨args, ev.before ++ " " ++ ev.after ++ " " ++ ev.ref, notifierEnv smtpPassword gitDir⟩
        if w1.notifierOk then ⟨.ok (), w1, [inv]⟩
        else ⟨.error "git_multimail_wrapper.py failed", w1, [inv]⟩

/-- The push case of the new revision's Server.githubEventHandler
(lines 238-262): a pipeline error becomes HTTP 400; success writes OK
and then slices both SHAs to 8 bytes for the log line, panicking when
either is shorter. -/
def serverPush (persist smtpPassword : String) (appAuthOk : Bool)
    (ev : PushEvent) (w : World) : Old.HandlerResult :=
  match githubPushHandler persist smtpPassword appAuthOk ev w with
  | ⟨.error e, w1, invs⟩ => ⟨400, ["push handler failed: " ++ e], false, w1, invs⟩
  | ⟨.ok _, w1, invs⟩ =>
    ⟨200, ["OK"], decide (ev.before.length < 8) || decide (ev.after.length < 8), w1, invs⟩

end New

/-! ## Concrete fixtures used by witnesses -/

/-- A concrete webhook secret (the bytes of a short ASCII string). -/
def secretFix : List Nat := [115, 101, 99, 114, 101, 116]

/-- A concrete raw request body. -/
def bodyFix : List Nat := [104, 105]

/-- The well-formed signature header for secretFix and bodyFix. -/
def goodHdrFix : String := "sha256=" ++ hexOfBytes (hmacSha256 secretFix bodyFix)

/-- The same header with trailing non-hex bytes appended. -/
def badHdrFix : String := goodHdrFix ++ "zz"

/-- A concrete repository. -/
def repoFix : Old.RepoInfo := ⟨"octo/repo", "https://example.com/octo/repo.git"⟩

/-- The mirror directory of repoFix under the persist root. -/
def gitDirFix : String := mirrorGitDir "persist" repoFix.fullName

/-- A valid configuration file with an empty format. -/
def viewOkFix : ConfigFileView := ⟨"dev@example.com", "", [], false⟩

/-- A configuration file with format pdf. -/
def viewPdfFix : ConfigFileView := ⟨"dev@example.com", "pdf", [], false⟩

/-- A world in which nothing is on disk and only repoFix is reachable
upstream, with the given configuration file at its HEAD. -/
def worldAbsentFix (cfg : Option ConfigFileView) : World :=
  { fs := fun _ => .absent
    remote := fun u => if u = repoFix.cloneUrl then some ⟨1, cfg⟩ else none
    notifierOk := true }

/-- A world in which the mirror of repoFix already exists and agrees
with the upstream, whose HEAD carries the given configuration file. -/
def worldMirrorFix (cfg : Option ConfigFileView) : World :=
  { fs := fun p => if p = gitDirFix then .mirror ⟨repoFix.cloneUrl, 1, cfg⟩ else .absent
    remote := fun u => if u = repoFix.cloneUrl then some ⟨1, cfg⟩ else none
    notifierOk := true }

/-- A concrete new-revision push event. -/
def evNewFix : New.PushEvent :=
  ⟨repoFix, "refs/heads/main", "aaaaaaaaaaaa", "bbbbbbbbbbbb", "Alice",
   "https://github.com/octo/repo"⟩

/-- A concrete old-revision push event whose before SHA has fewer than
8 bytes. -/
def evOldShortFix : Old.PushEvent := ⟨repoFix, "refs/heads/main", "abc", "bbbbbbbbbbbb"⟩

/-- A concrete old-revision generic event. -/
def gevOldFix : Old.GenericEvent := ⟨repoFix, "alice"⟩

end CommitEmailsBot

namespace CommitEmailsBot

/-! ## Path lemmas for the mirror directory -/

/-- splitSegs always yields at least one segment. -/
theorem splitSegs_ne_nil (l : List Char) : splitSegs l ≠ [] := by
  cases l with
  | nil => simp [splitSegs]
  | cons c cs =>
    simp only [splitSegs]
    by_cases h : c = '/'
    · simp [h]
    · simp only [if_neg h]
      cases hs : splitSegs cs <;> simp

/-- joinSegs undoes splitSegs. -/
theorem joinSegs_splitSegs (l : List Char) : joinSegs (splitSegs l) = l := by
  induction l with
  | nil => rfl
  | cons c cs ih =>
    by_cases h : c = '/'
    · subst h
      simp only [splitSegs, if_true]
      cases hs : splitSegs cs with
      | nil => exact absurd hs (splitSegs_ne_nil cs)
      | cons s ss =>
        rw [hs] at ih
        simpa [joinSegs] using ih
    · simp only [splitSegs, if_neg h]
      cases hs : splitSegs cs with
      | nil => exact absurd hs (splitSegs_ne_nil cs)
      | cons s ss =>
        rw [hs] at ih
        cases ss with
        | nil => simpa [joinSegs] using ih
        | cons t ts =>
          simp only [joinSegs] at ih ⊢
          rw [List.cons_append, ih]

/-- Splitting distributes over concatenation at a slash. -/
theorem splitSegs_append (a b : List Char) :
    splitSegs (a ++ '/' :: b) = splitSegs a ++ splitSegs b := by
  induction a with
  | nil => simp [splitSegs]
  | cons c cs ih =>
    by_cases h : c = '/'
    · subst h
      simp [splitSegs, ih]
    · simp only [List.cons_append, splitSegs, if_neg h, List.append_eq]
      rw [ih]
      cases hs : splitSegs cs with
      | nil => exact absurd hs (splitSegs_ne_nil cs)
      | cons s ss => simp

/-- Good segments pass through the cleaning loop untouched, whatever
has accumulated so far. -/
theorem cleanLoop_all_good (abs : Bool) (segs : List (List Char))
    (h : ∀ s ∈ segs, goodSeg s = true) :
    ∀ acc, cleanLoop abs acc segs = acc ++ segs := by
  induction segs with
  | nil => intro acc; simp [cleanLoop]
  | cons s rest ih =>
    intro acc
    have hs0 := h s (by simp)
    unfold goodSeg at hs0
    have hs := of_decide_eq_true hs0
    push_neg at hs
    have hrest : ∀ t ∈ rest, goodSeg t = true := fun t ht => h t (by simp [ht])
    simp only [cleanLoop, if_neg (not_or.mpr ⟨hs.1, hs.2.1⟩), if_neg hs.2.2, ih hrest]
    simp

/-- Joining distributes over concatenation of non-empty segment lists. -/
theorem joinSegs_append (A B : List (List Char)) (hA : A ≠ []) (hB : B ≠ []) :
    joinSegs (A ++ B) = joinSegs A ++ '/' :: joinSegs B := by
  induction A with
  | nil => exact absurd rfl hA
  | cons a A' ih =>
    cases A' with
    | nil =>
      cases B with
      | nil => exact absurd rfl hB
      | cons b B' => simp [joinSegs]
    | cons a2 A'' =>
      have h2 := ih (by simp)
      simp only [List.cons_append, joinSegs, List.append_eq] at h2 ⊢
      simp only [h2, List.append_assoc, List.cons_append]

/-- A path with only good segments is non-empty and does not start with
a slash. -/
theorem goodRel_shape (p : String) (h : goodRel p = true) :
    p.data ≠ [] ∧ ¬p.data.head? = some '/' := by
  cases hd : p.data with
  | nil =>
    exfalso
    simp only [goodRel, hd, splitSegs, List.all_eq_true] at h
    have := h [] (by simp)
    simp [goodSeg] at this
  | cons c cs =>
    refine ⟨by simp, ?_⟩
    intro hc
    simp only [List.head?] at hc
    have hc' : c = '/' := by injection hc
    simp only [goodRel, hd, splitSegs, hc', if_true, List.all_eq_true] at h
    have := h [] (by simp)
    simp [goodSeg] at this

/-- The segments of a good path are all good. -/
theorem goodRel_segs (p : String) (h : goodRel p = true) :
    ∀ s ∈ splitSegs p.data, goodSeg s = true := by
  simpa [goodRel, List.all_eq_true] using h

/-- Cleaning is the identity on a non-empty relative path with only
good segments. -/
theorem cleanChars_eq_self (l : List Char) (hne : l ≠ [])
    (hhead : ¬l.head? = some '/') (hall : ∀ s ∈ splitSegs l, goodSeg s = true) :
    cleanChars l = l := by
  rw [cleanChars, if_neg hne, if_neg hhead, cleanLoop_all_good false _ hall []]
  simp only [List.nil_append, joinSegs_splitSegs]
  rw [if_neg hne]

/-- On a good persist root and a good full name, the mirror path is the
plain concatenation persist/repos/github.com/fullName: joining
introduces exactly the three separators and cleaning is the identity. -/
theorem mirrorGitDir_good (p f : String) (hp : goodRel p = true) (hf : goodRel f = true) :
    mirrorGitDir p f = p ++ "/repos/github.com/" ++ f := by
  obtain ⟨hpne, hphead⟩ := goodRel_shape p hp
  have hpns : p ≠ "" := fun h => hpne (by simp [h])
  have hstr : joinSlash [p, "repos", "github.com", f] = p ++ "/repos/github.com/" ++ f := by
    have h1 : joinSlash [p, "repos", "github.com", f]
        = p ++ "/" ++ ("repos" ++ "/" ++ ("github.com" ++ "/" ++ f)) := rfl
    rw [h1]
    apply String.ext
    simp only [String.data_append, List.append_assoc]
    rfl
  have hd : (p ++ "/repos/github.com/" ++ f).data
      = p.data ++ '/' :: ("repos".data ++ '/' :: ("github.com".data ++ '/' :: f.data)) := by
    simp only [String.data_append, List.append_assoc]
    rfl
  have hne2 : (p ++ "/repos/github.com/" ++ f).data ≠ [] := by
    rw [hd]
    simp [hpne]
  have hhead2 : ¬(p ++ "/repos/github.com/" ++ f).data.head? = some '/' := by
    rw [hd]
    cases hp0 : p.data with
    | nil => exact absurd hp0 hpne
    | cons c t =>
      rw [hp0] at hphead
      simpa using hphead
  have hall2 : ∀ s ∈ splitSegs (p ++ "/repos/github.com/" ++ f).data, goodSeg s = true := by
    rw [hd, splitSegs_append, splitSegs_append, splitSegs_append]
    intro s hs
    simp only [List.mem_append] at hs
    rcases hs with hs | hs | hs | hs
    · exact goodRel_segs p hp s hs
    · revert s hs
      decide
    · revert s hs
      decide
    · exact goodRel_segs f hf s hs
  rw [mirrorGitDir, filepathJoin, if_neg hpns, hstr]
  apply String.ext
  exact cleanChars_eq_self _ hne2 hhead2 hall2

/-- C7 is refuted as stated: the mirror path goes through filepath.Join,
which cleans the joined path, so two distinct full names that differ by
a dot-dot segment map to the same mirror directory. -/
theorem c7_mirror_path_counterexample :
    mirrorGitDir "persist" "a/../a/b" = mirrorGitDir "persist" "a/b"
    ∧ ("a/../a/b" : String) ≠ "a/b" := by
  constructor
  · decide
  · decide

/-- C7 (amended): the mirror directory is a deterministic function of
the full name — on a persist root and full names whose slash-separated
segments are all non-empty and free of dot and dot-dot, it is exactly
persist/repos/github.com/fullName and is injective in the full name.
Full names containing dot-dot or redundant separators can collide after
cleaning, as the counterexample shows. -/
theorem c7_mirror_path_amended (p f1 f2 : String) (hp : goodRel p = true)
    (h1 : goodRel f1 = true) (h2 : goodRel f2 = true) :
    mirrorGitDir p f1 = p ++ "/repos/github.com/" ++ f1
    ∧ (mirrorGitDir p f1 = mirrorGitDir p f2 → f1 = f2) := by
  refine ⟨mirrorGitDir_good p f1 hp h1, fun he => ?_⟩
  rw [mirrorGitDir_good p f1 hp h1, mirrorGitDir_good p f2 hp h2] at he
  have hdata := congrArg String.data he
  simp only [String.data_append] at hdata
  exact String.ext (List.append_cancel_left hdata)

/-- Witness for the amended C7 at concrete inputs. -/
theorem c7_mirror_path_amended_witness :
    mirrorGitDir "persist" "octo/repo" = "persist" ++ "/repos/github.com/" ++ "octo/repo"
    ∧ (mirrorGitDir "persist" "octo/repo" = mirrorGitDir "persist" "left/right" →
        ("octo/repo" : String) = "left/right") :=
  c7_mirror_path_amended "persist" "octo/repo" "left/right" (by decide) (by decide) (by decide)

/-! ## Mirror synchronization -/

/-- Syncing into an absent directory clones and then fetches, leaving
the mirror equal to the upstream state. -/
theorem syncRepo_absent (gitDir url : String) (w : World) (r : RemoteRepo)
    (habs : w.fs gitDir = .absent) (hrem : w.remote url = some r) :
    syncRepo gitDir url w = .ok (syncedWorld w gitDir url r) := by
  simp [syncRepo, habs, gitClone, hrem, gitFetch, Function.update_same,
    Function.update_idem, syncedWorld]

/-- Syncing an existing mirror performs only the forced fetch. -/
theorem syncRepo_mirror (gitDir url : String) (w : World) (m : MirrorContent) (r : RemoteRepo)
    (hm : w.fs gitDir = .mirror m) (hrem : w.remote m.origin = some r) :
    syncRepo gitDir url w = .ok (syncedWorld w gitDir m.origin r) := by
  simp [syncRepo, hm, gitFetch, hrem, syncedWorld]

/-- C6: with the upstream unchanged, the first sync of an absent mirror
clones (and fetches) successfully and a second sync — now a forced
fetch — succeeds and leaves the world, in particular the mirror
directory, exactly as the first call left it. -/
theorem c6_sync_idempotent (gitDir url : String) (w : World) (r : RemoteRepo)
    (habs : w.fs gitDir = .absent) (hrem : w.remote url = some r) :
    ∃ w1, syncRepo gitDir url w = .ok w1 ∧ syncRepo gitDir url w1 = .ok w1
      ∧ w1.fs gitDir = .mirror ⟨url, r.snap, r.config⟩ := by
  refine ⟨syncedWorld w gitDir url r, syncRepo_absent gitDir url w r habs hrem, ?_,
    Function.update_same _ _ _⟩
  have h2 := syncRepo_mirror gitDir url (syncedWorld w gitDir url r)
    ⟨url, r.snap, r.config⟩ r (Function.update_same _ _ _) hrem
  rw [h2]
  simp [syncedWorld, Function.update_idem]

/-- Witness for C6 at a concrete world. -/
theorem c6_sync_idempotent_witness :
    ∃ w1, syncRepo gitDirFix repoFix.cloneUrl (worldAbsentFix (some viewOkFix)) = .ok w1
      ∧ syncRepo gitDirFix repoFix.cloneUrl w1 = .ok w1
      ∧ w1.fs gitDirFix = .mirror ⟨repoFix.cloneUrl, 1, some viewOkFix⟩ :=
  c6_sync_idempotent gitDirFix repoFix.cloneUrl (worldAbsentFix (some viewOkFix))
    ⟨1, some viewOkFix⟩ rfl rfl

/-! ## C2: push to an unconfigured repository -/

/-- C2: when the synchronized mirror carries no configuration file at
HEAD, the new revision's push pipeline short-circuits on SyncRepo's
MissingConfigError, the handler reports success, the response is
200 OK, and the notifier is never spawned. -/
theorem c2_unconfigured_push_ok (persist smtp : String) (ev : New.PushEvent) (w w1 : World)
    (hsync : syncRepo (mirrorGitDir persist ev.repository.fullName) ev.repository.cloneUrl w
      = .ok w1)
    (hnocfg : configAt w1 (mirrorGitDir persist ev.repository.fullName) = none) :
    (New.serverPush persist smtp true ev w).status = 200
    ∧ (New.serverPush persist smtp true ev w).writes = ["OK"]
    ∧ (New.serverPush persist smtp true ev w).invocations = [] := by
  have hpipe : New.githubPushHandler persist smtp true ev w = ⟨.ok (), w1, []⟩ := by
    simp [New.githubPushHandler, New.SyncRepo, hsync, hnocfg]
  simp [New.serverPush, hpipe]

/-- Witness for C2 at a concrete world whose upstream repository has no
configuration file. -/
theorem c2_unconfigured_push_ok_witness :
    (New.serverPush "persist" "hunter2" true evNewFix (worldMirrorFix none)).status = 200
    ∧ (New.serverPush "persist" "hunter2" true evNewFix (worldMirrorFix none)).writes = ["OK"]
    ∧ (New.serverPush "persist" "hunter2" true evNewFix (worldMirrorFix none)).invocations = [] :=
  c2_unconfigured_push_ok "persist" "hunter2" evNewFix (worldMirrorFix none)
    { worldMirrorFix none with
        fs := Function.update (worldMirrorFix none).fs gitDirFix
          (.mirror ⟨repoFix.cloneUrl, 1, none⟩) }
    rfl rfl

/-! ## C8 and C4: configuration resolution -/

/-- C8: on a syntactically valid file whose recognized fields are
valid, parseConfig of config.go succeeds with the decoded config no
matter which unknown keys are present, and the unknown keys produce
exactly the one warning (none when there are none). -/
theorem c8_unknown_fields_warn_only (r : New.TomlDecodeResult)
    (hdec : r.decodeError = none)
    (hfmt : r.config.emailFormat = "" ∨ r.config.emailFormat = "html"
      ∨ r.config.emailFormat = "text") :
    (New.parseConfig r).1 = .ok r.config
    ∧ (New.parseConfig r).2
      = (if r.undecoded.isEmpty then []
         else ["unknown config fields: " ++ String.intercalate ", " r.undecoded]) := by
  simp only [New.parseConfig, hdec]
  rw [if_pos hfmt]
  exact ⟨rfl, rfl⟩

/-- Witness for C8: a valid file carrying one unknown key resolves
successfully with a warning. -/
theorem c8_unknown_fields_warn_only_witness :
    (New.parseConfig ⟨none, ⟨"dev@example.com", "html"⟩, ["extra"]⟩).1
      = .ok ⟨"dev@example.com", "html"⟩
    ∧ (New.parseConfig ⟨none, ⟨"dev@example.com", "html"⟩, ["extra"]⟩).2
      = (if (["extra"] : List String).isEmpty then []
         else ["unknown config fields: " ++ String.intercalate ", " ["extra"]]) :=
  c8_unknown_fields_warn_only ⟨none, ⟨"dev@example.com", "html"⟩, ["extra"]⟩ rfl
    (Or.inr (Or.inl rfl))

/-- C4: a format value outside empty, html, text makes parseConfig of
config.go fail with the invalid-format error, and makes the old
revision's push pipeline abort after config resolution with zero
notifier invocations. -/
theorem c4_invalid_format_rejected (f : String)
    (hf : ¬(f = "" ∨ f = "html" ∨ f = "text")) :
    (∀ r : New.TomlDecodeResult, r.decodeError = none → r.config.emailFormat = f →
      (New.parseConfig r).1
        = .error ("invalid email.format (should be html or text): " ++ f))
    ∧ (∀ persist smtp (ev : Old.PushEvent) w w1 view,
        syncRepo (mirrorGitDir persist ev.repository.fullName) ev.repository.cloneUrl w
          = .ok w1 →
        configAt w1 (mirrorGitDir persist ev.repository.fullName) = some view →
        view.malformed = false → view.unknownKeys = [] → view.emailFormat = f →
        (Old.githubPushHandler persist smtp ev w).result
            = .error ("no commit-emails.json found for " ++ ev.repository.fullName ++ ": "
              ++ ("invalid emailFormat (should be html or text): " ++ f))
          ∧ (Old.githubPushHandler persist smtp ev w).invocations = []) := by
  have hf3 : f ≠ "" ∧ f ≠ "html" ∧ f ≠ "text" := by
    push_neg at hf
    exact hf
  constructor
  · intro r hdec hfv
    simp only [New.parseConfig, hdec, hfv]
    rw [if_neg hf]
  · intro persist smtp ev w w1 view hsync hcfg hm hu hfv
    have hget : Old.getConfig (mirrorGitDir persist ev.repository.fullName) w1
        = .error ("invalid emailFormat (should be html or text): " ++ f) := by
      simp only [Old.getConfig, hcfg, hm, hu, hfv]
      rw [if_neg (by simp), if_pos ⟨hf3.1, not_or.mpr ⟨hf3.2.1, hf3.2.2⟩⟩]
    simp [Old.githubPushHandler, hsync, hget]

/-- Witness for C4 at the concrete format pdf. -/
theorem c4_invalid_format_rejected_witness :
    (New.parseConfig ⟨none, ⟨"dev@example.com", "pdf"⟩, []⟩).1
      = .error ("invalid email.format (should be html or text): " ++ "pdf")
    ∧ (Old.githubPushHandler "persist" "" evOldShortFix
        (worldMirrorFix (some viewPdfFix))).invocations = [] := by
  refine ⟨(c4_invalid_format_rejected "pdf" (by decide)).1
    ⟨none, ⟨"dev@example.com", "pdf"⟩, []⟩ rfl rfl, ?_⟩
  exact ((c4_invalid_format_rejected "pdf" (by decide)).2 "persist" "" evOldShortFix
    (worldMirrorFix (some viewPdfFix))
    { worldMirrorFix (some viewPdfFix) with
        fs := Function.update (worldMirrorFix (some viewPdfFix)).fs gitDirFix
          (.mirror ⟨repoFix.cloneUrl, 1, some viewPdfFix⟩) }
    viewPdfFix rfl rfl rfl rfl rfl).2

/-! ## C3 and C5: shape of the notifier invocation -/

/-- Every invocation the new revision's push pipeline spawns has the
canonical shape: optional stdout flag followed by the password-free
base arguments, the three-field stdin payload, and the notifier
environment. -/
theorem New.invocations_shape (persist smtp : String) (auth : Bool)
    (ev : New.PushEvent) (w : World) :
    ∀ inv ∈ (New.githubPushHandler persist smtp auth ev w).invocations,
      ∃ gd config, inv =
        ⟨(if smtp = "" then ["--stdout"] else [])
            ++ New.notifierBaseArgs config ev.headCommitCommitterName ev.repoHtmlUrl,
          ev.before ++ " " ++ ev.after ++ " " ++ ev.ref,
          notifierEnv smtp gd⟩ := by
  intro inv hinv
  by_cases ha : auth
  · rcases hs : New.SyncRepo persist ev.repository w with ⟨se | gd, w1⟩
    · rcases se with _ | e <;> simp [New.githubPushHandler, ha, hs] at hinv
    · rcases hc : New.getConfig gd w1 with e | ⟨config, warns⟩
      · simp [New.githubPushHandler, ha, hs, hc] at hinv
      · by_cases hn : w1.notifierOk <;>
          simp [New.githubPushHandler, ha, hs, hc, hn] at hinv <;>
          exact ⟨gd, config, hinv⟩
  · simp [New.githubPushHandler, ha] at hinv

/-- C5: whatever invocation the push pipeline spawns, its stdin is
exactly the before SHA, a space, the after SHA, a space, and the ref —
nothing more. -/
theorem c5_notifier_stdin (persist smtp : String) (auth : Bool) (ev : New.PushEvent)
    (w : World) (inv : Invocation)
    (hinv : inv ∈ (New.githubPushHandler persist smtp auth ev w).invocations) :
    inv.stdinPayload = ev.before ++ " " ++ ev.after ++ " " ++ ev.ref := by
  obtain ⟨gd, config, rfl⟩ := New.invocations_shape persist smtp auth ev w inv hinv
  rfl

/-- Witness for C5: the concrete run that spawns the notifier delivers
the concrete three-field stdin. -/
theorem c5_notifier_stdin_witness :
    (⟨["--stdout", "-c", "multimailhook.mailingList=dev@example.com",
        "-c", "multimailhook.from=Alice <notifications@commit-emails.xyz>",
        "-c", "multimailhook.commitBrowseURL=https://github.com/octo/repo/commit/%(id)s"],
      "aaaaaaaaaaaa bbbbbbbbbbbb refs/heads/main",
      notifierEnv "" gitDirFix⟩ : Invocation).stdinPayload
    = evNewFix.before ++ " " ++ evNewFix.after ++ " " ++ evNewFix.ref :=
  c5_notifier_stdin "persist" "" true evNewFix (worldMirrorFix (some viewOkFix)) _
    (by decide)

/-- C3: the SMTP credential reaches the notifier only through its
environment. The full argument lists of a run are unchanged when the
credential changes to any other value of the same emptiness, and every
spawned invocation carries the credential in its environment entry
while its arguments are the optional stdout flag (present exactly for
an empty credential) followed by arguments built only from the
configuration and the event. -/
theorem c3_smtp_secret_isolated (persist : String) (auth : Bool) (ev : New.PushEvent)
    (w : World) (p1 p2 : String) (hp : p1 = "" ↔ p2 = "") :
    ((New.githubPushHandler persist p1 auth ev w).invocations.map Invocation.args
      = (New.githubPushHandler persist p2 auth ev w).invocations.map Invocation.args)
    ∧ ∀ inv ∈ (New.githubPushHandler persist p1 auth ev w).invocations,
        ("GIT_CONFIG_PARAMETERS", sq ++ "multimailhook.smtpPass=" ++ p1 ++ sq) ∈ inv.env
        ∧ ∃ config, inv.args
            = (if p1 = "" then ["--stdout"] else [])
              ++ New.notifierBaseArgs config ev.headCommitCommitterName ev.repoHtmlUrl := by
  constructor
  · by_cases ha : auth
    · rcases hs : New.SyncRepo persist ev.repository w with ⟨se | gd, w1⟩
      · rcases se with _ | e <;> simp [New.githubPushHandler, ha, hs]
      · rcases hc : New.getConfig gd w1 with e | ⟨config, warns⟩
        · simp [New.githubPushHandler, ha, hs, hc]
        · by_cases h1 : p1 = ""
          · have h2 : p2 = "" := hp.mp h1
            by_cases hn : w1.notifierOk <;>
              simp [New.githubPushHandler, ha, hs, hc, hn, h1, h2]
          · have h2 : ¬p2 = "" := fun hh => h1 (hp.mpr hh)
            by_cases hn : w1.notifierOk <;>
              simp [New.githubPushHandler, ha, hs, hc, hn, h1, h2]
    · simp [New.githubPushHandler, ha]
  · intro inv hinv
    obtain ⟨gd, config, rfl⟩ := New.invocations_shape persist p1 auth ev w inv hinv
    exact ⟨by simp [notifierEnv], ⟨config, rfl⟩⟩

/-- Witness for C3: two runs with different non-empty credentials have
identical argument lists, and a concrete spawned invocation carries the
first credential in its environment. -/
theorem c3_smtp_secret_isolated_witness :
    ((New.githubPushHandler "persist" "hunter2" true evNewFix
        (worldMirrorFix (some viewOkFix))).invocations.map Invocation.args
      = (New.githubPushHandler "persist" "swordfish" true evNewFix
        (worldMirrorFix (some viewOkFix))).invocations.map Invocation.args)
    ∧ ∀ inv ∈ (New.githubPushHandler "persist" "hunter2" true evNewFix
        (worldMirrorFix (some viewOkFix))).invocations,
        ("GIT_CONFIG_PARAMETERS", sq ++ "multimailhook.smtpPass=" ++ "hunter2" ++ sq) ∈ inv.env
        ∧ ∃ config, inv.args
            = (if ("hunter2" : String) = "" then ["--stdout"] else [])
              ++ New.notifierBaseArgs config evNewFix.headCommitCommitterName
                evNewFix.repoHtmlUrl :=
  c3_smtp_secret_isolated "persist" true evNewFix (worldMirrorFix (some viewOkFix))
    "hunter2" "swordfish" (by simp)

/-! ## C1: webhook authentication of the old handler -/

/-- C1 (amended): the old handler accepts exactly when the Sscanf-style
scan of the header succeeds and the scanned bytes equal
HMAC-SHA256(secret, body). A missing (empty) header is rejected.
Flipping bytes of the body rejects a previously accepted request
whenever the flip changes the HMAC value. Any rejected request is
answered 400 with one error write, before event decoding (the result
does not consult the decoders) and with the world untouched and no
notifier spawned. -/
theorem c1_webhook_auth_amended (secret body : List Nat) (hdr : String) :
    (oldWebhookAuth secret hdr body = true
      ↔ parseSigHeader hdr = some (hmacSha256 secret body))
    ∧ oldWebhookAuth secret "" body = false
    ∧ (∀ body2, hmacSha256 secret body2 ≠ hmacSha256 secret body →
        oldWebhookAuth secret hdr body = true → oldWebhookAuth secret hdr body2 = false)
    ∧ (oldWebhookAuth secret hdr body = false → ∀ persist smtp evt dp dg w,
        ∃ m, Old.githubEventHandler dp dg secret persist smtp ⟨"POST", hdr, evt, body⟩ w
          = ⟨400, [m], false, w, []⟩) := by
  have hiff : oldWebhookAuth secret hdr body = true
      ↔ parseSigHeader hdr = some (hmacSha256 secret body) := by
    unfold oldWebhookAuth
    cases hp : parseSigHeader hdr with
    | none => simp
    | some e => simp [beq_iff_eq]
  refine ⟨hiff, rfl, ?_, ?_⟩
  · intro body2 hne hacc
    cases hb : oldWebhookAuth secret hdr body2 with
    | false => rfl
    | true =>
      exfalso
      have h1 := hiff.mp hacc
      have h2 : parseSigHeader hdr = some (hmacSha256 secret body2) := by
        unfold oldWebhookAuth at hb
        cases hp : parseSigHeader hdr with
        | none => rw [hp] at hb; exact absurd hb (by simp)
        | some e =>
          rw [hp] at hb
          simp only [beq_iff_eq] at hb
          rw [hb]
      rw [h1] at h2
      exact hne (by injection h2 with h3; exact h3.symm)
  · intro hfail persist smtp evt dp dg w
    cases hp : parseSigHeader hdr with
    | none =>
      refine ⟨"invalid signature", ?_⟩
      simp [Old.githubEventHandler, hp]
    | some e =>
      have hne : e ≠ hmacSha256 secret body := by
        intro he
        have : oldWebhookAuth secret hdr body = true := hiff.mpr (he ▸ hp)
        rw [this] at hfail
        exact absurd hfail (by simp)
      refine ⟨"signature verification failed", ?_⟩
      simp [Old.githubEventHandler, hp, hne]

/-- C1 is refuted as stated: a header whose digest field carries
trailing non-hex bytes after the correct digest is malformed hex and
differs from the true digest, yet the handler accepts it, because the
Sscanf verb stops at the first non-hex pair boundary without failing. -/
theorem c1_webhook_auth_counterexample :
    oldWebhookAuth secretFix badHdrFix bodyFix = true
    ∧ (badHdrFix.data.drop 7) ≠ (hexOfBytes (hmacSha256 secretFix bodyFix)).data
    ∧ (badHdrFix.data.drop 7).all isHexDigitB = false := by
  refine ⟨by decide, by decide, by decide⟩

/-- Witness for the amended C1: the well-formed header is accepted for
the original body and rejected for a flipped body. -/
theorem c1_webhook_auth_amended_witness :
    oldWebhookAuth secretFix goodHdrFix bodyFix = true
    ∧ oldWebhookAuth secretFix goodHdrFix [105, 105] = false := by
  constructor
  · exact (c1_webhook_auth_amended secretFix bodyFix goodHdrFix).1.mpr (by decide)
  · exact (c1_webhook_auth_amended secretFix bodyFix goodHdrFix).2.2.1 [105, 105]
      (by decide)
      ((c1_webhook_auth_amended secretFix bodyFix goodHdrFix).1.mpr (by decide))

/-! ## C9: ping handling of the old handler -/

/-- C9: a validly signed POST ping request whose payload decodes is
answered 200 Pong, and when the mirror directory was absent the handler
has cloned it: the directory now holds the bare mirror of the upstream
repository. -/
theorem c9_ping_pongs_and_clones
    (dp : List Nat → Except String Old.PushEvent)
    (dg : List Nat → Except String Old.GenericEvent)
    (secret body : List Nat) (persist smtp sig : String)
    (gev : Old.GenericEvent) (w : World) (r : RemoteRepo)
    (hsig : parseSigHeader sig = some (hmacSha256 secret body))
    (hdg : dg body = .ok gev)
    (habs : w.fs (mirrorGitDir persist gev.repository.fullName) = .absent)
    (hrem : w.remote gev.repository.cloneUrl = some r) :
    ∃ w1, Old.githubEventHandler dp dg secret persist smtp ⟨"POST", sig, "ping", body⟩ w
        = ⟨200, ["Pong"], false, w1, []⟩
      ∧ w1.fs (mirrorGitDir persist gev.repository.fullName)
        = .mirror ⟨gev.repository.cloneUrl, r.snap, r.config⟩ := by
  have hsync := syncRepo_absent (mirrorGitDir persist gev.repository.fullName)
    gev.repository.cloneUrl w r habs hrem
  refine ⟨syncedWorld w (mirrorGitDir persist gev.repository.fullName)
    gev.repository.cloneUrl r, ?_, ?_⟩
  · simp [Old.githubEventHandler, hsig, hdg, hsync]
  · exact Function.update_same _ _ _

/-- Witness for C9 at a concrete signed ping request over an absent
mirror. -/
theorem c9_ping_pongs_and_clones_witness :
    ∃ w1, Old.githubEventHandler (fun _ => .error "not a push") (fun _ => .ok gevOldFix)
        secretFix "persist" "hunter2" ⟨"POST", goodHdrFix, "ping", bodyFix⟩
        (worldAbsentFix (some viewOkFix))
        = ⟨200, ["Pong"], false, w1, []⟩
      ∧ w1.fs (mirrorGitDir "persist" gevOldFix.repository.fullName)
        = .mirror ⟨gevOldFix.repository.cloneUrl, 1, some viewOkFix⟩ :=
  c9_ping_pongs_and_clones (fun _ => .error "not a push") (fun _ => .ok gevOldFix)
    secretFix bodyFix "persist" "hunter2" goodHdrFix gevOldFix
    (worldAbsentFix (some viewOkFix)) ⟨1, some viewOkFix⟩ (by decide) rfl rfl rfl

/-! ## C10: the success log line slices both SHAs -/

/-- A successful old-revision push pipeline spawned the notifier: its
invocation list is non-empty. -/
theorem old_push_ok_shape (persist smtp : String) (ev : Old.PushEvent) (w : World)
    (h : (Old.githubPushHandler persist smtp ev w).result = .ok ()) :
    (Old.githubPushHandler persist smtp ev w).invocations ≠ [] := by
  rcases hs : syncRepo (mirrorGitDir persist ev.repository.fullName)
      ev.repository.cloneUrl w with e | w1
  · simp [Old.githubPushHandler, hs] at h
  · rcases hc : Old.getConfig (mirrorGitDir persist ev.repository.fullName) w1
        with e | config
    · simp [Old.githubPushHandler, hs, hc] at h
    · by_cases hn : w1.notifierOk
      · simp [Old.githubPushHandler, hs, hc, hn]
      · simp [Old.githubPushHandler, hs, hc, hn] at h

/-- C10: on a validly signed push whose pipeline succeeds, the handler
writes 200 OK and has already spawned the notifier; the success log
line then slices the first 8 bytes of both SHAs, so the handler panics
exactly when either SHA string is shorter than 8. -/
theorem c10_short_sha_panics
    (dp : List Nat → Except String Old.PushEvent)
    (dg : List Nat → Except String Old.GenericEvent)
    (secret body : List Nat) (persist smtp sig : String)
    (ev : Old.PushEvent) (w : World)
    (hsig : parseSigHeader sig = some (hmacSha256 secret body))
    (hdp : dp body = .ok ev)
    (hok : (Old.githubPushHandler persist smtp ev w).result = .ok ()) :
    (Old.githubEventHandler dp dg secret persist smtp ⟨"POST", sig, "push", body⟩ w).status
        = 200
    ∧ (Old.githubEventHandler dp dg secret persist smtp ⟨"POST", sig, "push", body⟩ w).writes
        = ["OK"]
    ∧ (Old.githubEventHandler dp dg secret persist smtp ⟨"POST", sig, "push", body⟩ w).invocations
        ≠ []
    ∧ (ev.before.length < 8 →
        (Old.githubEventHandler dp dg secret persist smtp
          ⟨"POST", sig, "push", body⟩ w).panicked = true)
    ∧ (8 ≤ ev.before.length → 8 ≤ ev.after.length →
        (Old.githubEventHandler dp dg secret persist smtp
          ⟨"POST", sig, "push", body⟩ w).panicked = false) := by
  have hne := old_push_ok_shape persist smtp ev w hok
  rcases hpr : Old.githubPushHandler persist smtp ev w with ⟨res, w1, invs⟩
  rw [hpr] at hok hne
  simp only at hok hne
  cases res with
  | error e => exact absurd hok (by simp)
  | ok u =>
    have hhandler : Old.githubEventHandler dp dg secret persist smtp
        ⟨"POST", sig, "push", body⟩ w
        = ⟨200, ["OK"],
            decide (ev.before.length < 8) || decide (ev.after.length < 8), w1, invs⟩ := by
      simp [Old.githubEventHandler, hsig, hdp, hpr]
    rw [hhandler]
    refine ⟨rfl, rfl, hne, ?_, ?_⟩
    · intro hlt
      simp [hlt]
    · intro hb hafter
      simp [Nat.not_lt.mpr hb, Nat.not_lt.mpr hafter]

/-- Witness for C10: a concrete signed push with a 3-byte before SHA
succeeds, spawns the notifier, and panics on the log line. -/
theorem c10_short_sha_panics_witness :
    (Old.githubEventHandler (fun _ => .ok evOldShortFix) (fun _ => .error "generic")
        secretFix "persist" "hunter2" ⟨"POST", goodHdrFix, "push", bodyFix⟩
        (worldMirrorFix (some viewOkFix))).invocations ≠ []
    ∧ (Old.githubEventHandler (fun _ => .ok evOldShortFix) (fun _ => .error "generic")
        secretFix "persist" "hunter2" ⟨"POST", goodHdrFix, "push", bodyFix⟩
        (worldMirrorFix (some viewOkFix))).panicked = true := by
  refine ⟨(c10_short_sha_panics (fun _ => .ok evOldShortFix) (fun _ => .error "generic")
    secretFix bodyFix "persist" "hunter2" goodHdrFix evOldShortFix
    (worldMirrorFix (some viewOkFix)) (by decide) rfl rfl).2.2.1, ?_⟩
  exact (c10_short_sha_panics (fun _ => .ok evOldShortFix) (fun _ => .error "generic")
    secretFix bodyFix "persist" "hunter2" goodHdrFix evOldShortFix
    (worldMirrorFix (some viewOkFix)) (by decide) rfl rfl).2.2.2.1 (by decide)

end CommitEmailsBot

/-! ## Sanity checks of the embedding

filepath.Clean on the classic examples, the Go scanner on well-formed,
truncated and garbage-bearing headers, and the SHA-256 and HMAC-SHA256
test vectors. -/

open CommitEmailsBot in
example : filepathClean "a/../b" = "b" := by decide

open CommitEmailsBot in
example : filepathClean "/../a//b/./c/" = "/a/b/c" := by decide

open CommitEmailsBot in
example : filepathClean "a/.." = "." := by decide

open CommitEmailsBot in
example : filepathClean "../../x" = "../../x" := by decide

open CommitEmailsBot in
example : mirrorGitDir "persist" "tchajed/repo" = "persist/repos/github.com/tchajed/repo" := by decide

open CommitEmailsBot in
example : mirrorGitDir "persist" "../../evil" = "persist/evil" := by decide

open CommitEmailsBot in
example : mirrorGitDir "persist" "a/../a/b" = mirrorGitDir "persist" "a/b" := by decide

open CommitEmailsBot in
example : goodRel "tchajed/repo" = true := by decide

open CommitEmailsBot in
example : goodRel "a//b" = false := by decide
open CommitEmailsBot in
example : parseSigHeader "sha256=ab12" = some [0xab, 0x12] := by decide

open CommitEmailsBot in
example : parseSigHeader "sha256=ab12zz" = some [0xab, 0x12] := by decide

open CommitEmailsBot in
example : parseSigHeader "sha256=ab1" = none := by decide

open CommitEmailsBot in
example : parseSigHeader "sha256=abz1" = some [0xab] := by decide

open CommitEmailsBot in
example : parseSigHeader "sha256=abcz" = none := by decide

open CommitEmailsBot in
example : parseSigHeader "" = none := by decide

open CommitEmailsBot in
example : parseSigHeader "sha256=" = none := by decide

open CommitEmailsBot in
example : hexOfBytes [0xab, 0x12] = "ab12" := by decide

open CommitEmailsBot in
example :
    hmacSha256 ("key".data.map Char.toNat)
      ("The quick brown fox jumps over the lazy dog".data.map Char.toNat)
      = [247, 188, 131, 244, 48, 83, 132, 36, 177, 50, 152, 230, 170, 111, 177, 67,
         239, 77, 89, 161, 73, 70, 23, 89, 151, 71, 157, 188, 45, 26, 60, 216] := by
  decide
open CommitEmailsBot in
example : sha256 [] =
  [227, 176, 196, 66, 152, 252, 28, 20, 154, 251, 244, 200, 153, 111, 185, 36,
   39, 174, 65, 228, 100, 155, 147, 76, 164, 149, 153, 27, 120, 82, 184, 85] := by
  decide

open CommitEmailsBot in
example : sha256 [97, 98, 99] =
  [186, 120, 22, 191, 143, 1, 207, 234, 65, 65, 64, 222, 93, 174, 34, 35,
   176, 3, 97, 163, 150, 23, 122, 156, 180, 16, 255, 97, 242, 0, 21, 173] := by
  decide
